import Mathlib

/-!
Verification development for the `gatewayrs563` repository: an IMAP-to-EWS
gateway written in Rust.  The definitions below are a shallow embedding of
the relevant source functions.  Rust strings are modelled as `List Char`,
machine integers (`u32`) as `Nat` with explicit `% 2^32` bounds, fallible
code as `Except`/`Option`, and network I/O as explicit outcome parameters
(a `Bool` for the HTTP status test, oracle functions for remote results).
-/

/-! ### Basic string utilities (models of Rust `str` methods) -/

/-- Model of Rust `str::split(sep)` for a one-character separator:
splits the character list at every occurrence of `sep`; an empty input
yields one empty field, like Rust. -/
def splitOnChar (sep : Char) : List Char → List (List Char)
  | [] => [[]]
  | a :: l =>
    if a = sep then [] :: splitOnChar sep l
    else
      match splitOnChar sep l with
      | [] => [[a]]
      | h :: t => (a :: h) :: t

/-- Splits off the field before the first occurrence of `sep`; returns
the field and the remainder after the separator, if any. -/
def breakAtChar (sep : Char) : List Char → List Char × Option (List Char)
  | [] => ([], none)
  | c :: t =>
    if c = sep then ([], some t)
    else
      let (a, r) := breakAtChar sep t
      (c :: a, r)

/-- Model of Rust `str::splitn(n, sep)` for a one-character separator:
at most `n` fields, the last field keeps the rest of the input verbatim. -/
def splitnChar : Nat → Char → List Char → List (List Char)
  | 0, _, _ => []
  | 1, _, l => [l]
  | n + 2, sep, l =>
    match breakAtChar sep l with
    | (a, none) => [a]
    | (a, some rest) => a :: splitnChar (n + 1) sep rest

/-- Model of Rust `str::trim_matches(c)`: removes every leading and
trailing occurrence of the character `c`. -/
def trimMatchChar (c : Char) (l : List Char) : List Char :=
  ((l.dropWhile (· = c)).reverse.dropWhile (· = c)).reverse

/-- Model of Rust `str::trim_matches(pred)` for a character predicate:
removes every leading and trailing character satisfying `pred`. -/
def trimMatchPred (pred : Char → Bool) (l : List Char) : List Char :=
  ((l.dropWhile pred).reverse.dropWhile pred).reverse

/-- Model of Rust `str::trim` (whitespace is modelled as ASCII whitespace). -/
def trimWs (l : List Char) : List Char :=
  trimMatchPred Char.isWhitespace l

/-- Model of Rust `str::to_uppercase` (modelled for ASCII characters,
which is the fragment the protocol command words live in). -/
def upperAscii (l : List Char) : List Char :=
  l.map Char.toUpper

/-- Model of Rust `str::split_whitespace`: splits on maximal runs of
whitespace, producing no empty fields.  `acc` holds the (reversed)
characters of the field being read. -/
def splitWsAux : List Char → List Char → List (List Char)
  | acc, [] => if acc.isEmpty then [] else [acc.reverse]
  | acc, c :: t =>
    if c.isWhitespace then
      if acc.isEmpty then splitWsAux [] t else acc.reverse :: splitWsAux [] t
    else splitWsAux (c :: acc) t

/-- Model of Rust `str::split_whitespace`. -/
def splitWs (l : List Char) : List (List Char) :=
  splitWsAux [] l

/-! ### `u32` decimal parsing (model of Rust `str::parse::<u32>()`)

Rust's `u32::from_str` accepts an optional leading `+`, then one or more
ASCII decimal digits, and fails on overflow past `u32::MAX`. -/

/-- Decimal value of a digit list (the usual left fold). -/
def charsVal (l : List Char) : Nat :=
  l.foldl (fun acc c => acc * 10 + (c.toNat - 48)) 0

/-- Removes the single optional leading `+` sign. -/
def stripPlus (s : List Char) : List Char :=
  match s with
  | c :: r => if c = '+' then r else s
  | [] => s

/-- Model of Rust `str::parse::<u32>()`: optional leading `+`, at least
one ASCII digit, value below `2^32`. -/
def parse_u32 (s : List Char) : Option Nat :=
  if stripPlus s ≠ [] ∧ (stripPlus s).all Char.isDigit then
    if charsVal (stripPlus s) < 2 ^ 32 then some (charsVal (stripPlus s)) else none
  else none

/-! ### `ExchangeError` (exchange.rs lines 14-21)

`HttpError` carries a `reqwest::Error` in the source; no claim inspects
its payload, so it is modelled as a bare constructor.  The message
strings of the other constructors are modelled verbatim. -/

inductive ExchangeError where
  | HttpError : ExchangeError
  | AuthError : List Char → ExchangeError
  | ParseError : List Char → ExchangeError
  | ConfigError : List Char → ExchangeError
  | RuntimeError : List Char → ExchangeError
deriving DecidableEq, Repr

/-! ### `parse_sequence_set` (exchange.rs lines 492-539) -/

/-- One bound of a colon range: the source maps a literal `*` to `10`
("in a real implementation, this would be the highest message number")
and otherwise parses a `u32`, reporting the offending token. -/
def parseRangeBound (q : List Char) : Except ExchangeError Nat :=
  if q = ['*'] then .ok 10
  else
    match parse_u32 q with
    | some n => .ok n
    | none => .error (.ParseError ("Invalid sequence number: ".data ++ q))

/-- One comma-separated part of a sequence set, mirroring the loop body of
`parse_sequence_set`: `*` expands to `1..=10`; a part containing `:` must
split into exactly two bounds and expands to the ascending closed interval
`min..=max`; anything else is a single `u32`. -/
def parsePart (p : List Char) : Except ExchangeError (List Nat) :=
  if p = ['*'] then
    .ok (List.range' 1 10)
  else if ':' ∈ p then
    let rp := splitOnChar ':' p
    if rp.length ≠ 2 then .error (.ParseError ("Invalid range: ".data ++ p))
    else do
      let s ← parseRangeBound (rp.getD 0 [])
      let e ← parseRangeBound (rp.getD 1 [])
      .ok (List.range' (min s e) (max s e + 1 - min s e))
  else
    match parse_u32 p with
    | some n => .ok [n]
    | none => .error (.ParseError ("Invalid sequence number: ".data ++ p))

/-- Sequential processing of the comma-separated parts, accumulating the
expansions in request order; the first failing part aborts with its error,
exactly like the `?` operator inside the source's `for` loop. -/
def parseParts : List (List Char) → Except ExchangeError (List Nat)
  | [] => .ok []
  | p :: rest => do
    let xs ← parsePart p
    let ys ← parseParts rest
    .ok (xs ++ ys)

deriving instance DecidableEq for Except

/-- Model of `parse_sequence_set` (exchange.rs lines 492-539). -/
def parse_sequence_set (sequence_set : List Char) : Except ExchangeError (List Nat) :=
  parseParts (splitOnChar ',' sequence_set)

example : parse_sequence_set "1:3".data = .ok [1, 2, 3] := by decide
example : parse_sequence_set "3:1".data = .ok [1, 2, 3] := by decide
example : parse_sequence_set "*".data = .ok [1, 2, 3, 4, 5, 6, 7, 8, 9, 10] := by decide
example : parse_sequence_set "5:*".data = .ok [5, 6, 7, 8, 9, 10] := by decide
example : parse_sequence_set "0".data = .ok [0] := by decide
example : parse_sequence_set "2,1:3,2".data = .ok [2, 1, 2, 3, 2] := by decide
example : parse_sequence_set "".data =
    .error (.ParseError "Invalid sequence number: ".data) := by decide
example : parse_sequence_set "1:".data =
    .error (.ParseError "Invalid sequence number: ".data) := by decide
example : parse_sequence_set "-1".data =
    .error (.ParseError "Invalid sequence number: -1".data) := by decide
example : parse_sequence_set "1:2:3".data =
    .error (.ParseError "Invalid range: 1:2:3".data) := by decide

/-! ### `FolderStats` and `select_folder` (exchange.rs lines 43-50, 294-373)

The SOAP request body built at lines 298-346 only shapes outbound I/O and
never influences the returned value; the HTTP round trip is modelled by a
`http_ok` flag for `response.status().is_success()`.  `exists` is a Lean
keyword-adjacent name, rendered `exists_` here. -/

structure FolderStats where
  exists_ : Nat
  recent : Nat
  unseen : Nat
  uid_validity : Nat
  uid_next : Nat
deriving DecidableEq, Repr

/-- UTF-8 encoding of one character (model of iterating Rust `str::bytes`). -/
def utf8Bytes (c : Char) : List Nat :=
  let n := c.toNat
  if n < 0x80 then [n]
  else if n < 0x800 then [0xC0 + n / 64, 0x80 + n % 64]
  else if n < 0x10000 then [0xE0 + n / 4096, 0x80 + n / 64 % 64, 0x80 + n % 64]
  else [0xF0 + n / 262144, 0x80 + n / 4096 % 64, 0x80 + n / 64 % 64, 0x80 + n % 64]

/-- Model of Rust `str::bytes` over the whole string. -/
def strBytes (s : List Char) : List Nat :=
  (s.map utf8Bytes).flatten

/-- exchange.rs line 364: `folder_name.bytes().fold(0u32, |acc, b| acc.wrapping_add(b as u32))`;
`wrapping_add` is addition modulo `2^32`. -/
def uid_validity_of (folder_name : List Char) : Nat :=
  (strBytes folder_name).foldl (fun acc b => (acc + b) % 2 ^ 32) 0

/-- Model of `ExchangeClient::select_folder` (exchange.rs lines 294-373):
on HTTP success the returned stats are the hardcoded values of lines
366-372 with the byte-sum `uid_validity` of line 364. -/
def select_folder (http_ok : Bool) (folder_name : List Char) :
    Except ExchangeError FolderStats :=
  if http_ok then
    .ok { exists_ := 125, recent := 5, unseen := 10
          uid_validity := uid_validity_of folder_name, uid_next := 1000 }
  else .error .HttpError

/-! ### `Message` and `fetch_messages` (exchange.rs lines 52-56, 375-488) -/

structure Message where
  sequence : Nat
  data : List Char
deriving DecidableEq, Repr

/-- The `BODY[HEADER]` payload rendered at exchange.rs lines 461-463. -/
def renderHeaderBody (seq : Nat) : List Char :=
  "BODY[HEADER] {320}\r\nFrom: user".data ++ (Nat.repr (seq % 10)).data ++
  "@example.com\r\nTo: recipient@example.com\r\nSubject: Test message ".data ++
  (Nat.repr seq).data ++ "\r\nDate: Fri, 28 Mar 2025 10:".data ++
  (Nat.repr (seq % 60)).data ++ ":00 +0000\r\nMessage-ID: <".data ++
  (Nat.repr seq).data ++ ".".data ++ (Nat.repr seq).data ++ ".".data ++
  (Nat.repr seq).data ++ "@example.com>\r\n\r\n".data

/-- The `BODY[TEXT]` payload rendered at exchange.rs lines 465-466. -/
def renderTextBody (seq : Nat) : List Char :=
  "BODY[TEXT] {42}\r\nThis is the body of test message ".data ++
  (Nat.repr seq).data ++ ".\r\n".data

/-- The full `BODY[]` payload rendered at exchange.rs lines 468-470. -/
def renderFullBody (seq : Nat) : List Char :=
  "BODY[] {362}\r\nFrom: user".data ++ (Nat.repr (seq % 10)).data ++
  "@example.com\r\nTo: recipient@example.com\r\nSubject: Test message ".data ++
  (Nat.repr seq).data ++ "\r\nDate: Fri, 28 Mar 2025 10:".data ++
  (Nat.repr (seq % 60)).data ++ ":00 +0000\r\nMessage-ID: <".data ++
  (Nat.repr seq).data ++ ".".data ++ (Nat.repr seq).data ++ ".".data ++
  (Nat.repr seq).data ++ "@example.com>\r\n\r\nThis is the body of test message ".data ++
  (Nat.repr seq).data ++ ".\r\n".data

/-- One arm of the `match *item` at exchange.rs lines 452-475: the data
part generated for one requested fetch item, or `none` for an item the
code silently ignores.  The guards are tested in source order.  The UID
of line 458 is the `u32` sum `1000 + seq`, so it wraps modulo `2^32`
(`seq` itself is a `u32` produced by `parse_sequence_set`). -/
def renderItem (seq : Nat) (item : List Char) : Option (List Char) :=
  if item = "FLAGS".data then some "FLAGS (\\Seen)".data
  else if item = "UID".data then
    some ("UID ".data ++ (Nat.repr ((1000 + seq) % 2 ^ 32)).data)
  else if "BODY[HEADER]".data.isPrefixOf item then some (renderHeaderBody seq)
  else if "BODY[TEXT]".data.isPrefixOf item then some (renderTextBody seq)
  else if item = "BODY[]".data ∨ "BODY[".data.isPrefixOf item then some (renderFullBody seq)
  else none

/-- exchange.rs line 445: `items.trim_matches(|c| c == '(' || c == ')').split_whitespace()`. -/
def fetch_items_of (items : List Char) : List (List Char) :=
  splitWs (trimMatchPred (fun c => c = '(' ∨ c = ')') items)

/-- The message generated for one sequence number (loop body at
exchange.rs lines 448-485): the rendered parts joined by spaces inside
parentheses, or nothing at all when no requested item was recognized. -/
def renderMessage (fetch_items : List (List Char)) (seq : Nat) : Option Message :=
  let data_parts := fetch_items.filterMap (renderItem seq)
  if data_parts.isEmpty then none
  else some ⟨seq, '(' :: List.intercalate " ".data data_parts ++ [')']⟩

/-- Model of `ExchangeClient::fetch_messages` (exchange.rs lines 375-488).
The sequence set is parsed before the request is sent (line 386), so a
parse error precedes any HTTP outcome; the SOAP body of lines 399-421 is
outbound I/O only.  `folder` shapes only the request body. -/
def fetch_messages (http_ok : Bool) (folder seq_set items : List Char) :
    Except ExchangeError (List Message) := do
  let _ := folder
  let sequences ← parse_sequence_set seq_set
  if http_ok then
    let fetch_items := fetch_items_of items
    .ok (sequences.filterMap (renderMessage fetch_items))
  else .error .HttpError

example : fetch_messages true "INBOX".data "1:2".data "(UID FLAGS)".data =
    .ok [⟨1, "(UID 1001 FLAGS (\\Seen))".data⟩, ⟨2, "(UID 1002 FLAGS (\\Seen))".data⟩] := by
  decide
example : fetch_messages true "INBOX".data "1".data "(X-FOO)".data = .ok [] := by decide

/-! ### `list_folders` (exchange.rs lines 205-292)

The non-`*` branch compiles `pattern.replace("*", ".*")` with the `regex`
crate and keeps the folders for which `Regex::is_match` finds a match
anywhere in the display name (unanchored search).  The regex engine is
modelled here for patterns free of regex metacharacters other than the
glob star: such a pattern compiles to a sequence of literal-character
tokens and `.*` tokens, and `is_match` is the existence of a matching
substring. -/

/-- One token of the compiled pattern: a literal character, or the `.*`
produced from a glob `*`. -/
inductive RTok where
  | lit : Char → RTok
  | star : RTok
deriving DecidableEq, Repr

/-- `pattern.replace("*", ".*")` followed by regex compilation, for
metacharacter-free patterns: `*` becomes `.*`, everything else is literal. -/
def compilePattern (pattern : List Char) : List RTok :=
  pattern.map fun c => if c = '*' then RTok.star else RTok.lit c

/-- Whole-list matching of a token sequence against a character list:
`.*` consumes an arbitrary (possibly empty) suffix-starting segment. -/
def matchToks : List RTok → List Char → Bool
  | [], s => s.isEmpty
  | RTok.lit _ :: _, [] => false
  | RTok.lit c :: ts, x :: xs => x = c && matchToks ts xs
  | RTok.star :: ts, s => (s.tails).any fun t => matchToks ts t

/-- Model of `regex::Regex::is_match`: the token list matches some
substring (a prefix of some suffix) of `s`. -/
def regexIsMatch (toks : List RTok) (s : List Char) : Bool :=
  (s.tails).any fun t => (t.inits).any fun u => matchToks toks u

/-- The characters the `regex` crate treats specially; patterns built from
other characters (plus the glob `*`) are the fragment modelled here. -/
def regexMeta : List Char :=
  ['.', '+', '?', '(', ')', '[', ']', '^', '$', '|', '\\', '-', '&', '~', '#']

/-- The pattern fragment for which `compilePattern`/`regexIsMatch` are a
faithful model of the source's `regex` usage. -/
def patternNoMeta (pattern : List Char) : Prop :=
  ∀ c ∈ pattern, c ∉ regexMeta ∧ c.toNat ∉ [123, 125]

instance (pattern : List Char) : Decidable (patternNoMeta pattern) := by
  unfold patternNoMeta; infer_instance

/-- Modelled from the spec: glob-style matching as the specification
describes the LIST pattern — `*` matches any character sequence, every
other character matches itself, and the whole folder name must be
consumed.  This is the spec-side definition that claim C8 compares the
code against. -/
def matchGlob : List Char → List Char → Bool
  | [], s => s.isEmpty
  | c :: ps, s =>
    if c = '*' then (s.tails).any fun t => matchGlob ps t
    else
      match s with
      | [] => false
      | x :: xs => x = c && matchGlob ps xs

/-- The simulated folder list of exchange.rs lines 264-271 / 279-286. -/
def allFolders : List (List Char) :=
  ["INBOX".data, "Sent Items".data, "Drafts".data,
   "Deleted Items".data, "Junk Email".data, "Archive".data]

/-- Model of `ExchangeClient::list_folders` (exchange.rs lines 205-292):
pattern `*` returns every simulated folder; any other pattern is compiled
to a regex and the folders are filtered by unanchored match.  The SOAP
request of lines 217-248 is outbound I/O modelled by `http_ok`. -/
def list_folders (http_ok : Bool) (pattern : List Char) :
    Except ExchangeError (List (List Char)) :=
  if http_ok then
    if pattern = "*".data then .ok allFolders
    else .ok (allFolders.filter fun folder => regexIsMatch (compilePattern pattern) folder)
  else .error .HttpError

example : list_folders true "raft".data = .ok ["Drafts".data] := by decide
example : matchGlob "raft".data "Drafts".data = false := by decide
example : list_folders true "D*".data = .ok ["Drafts".data, "Deleted Items".data] := by decide

/-! ### `ExchangeClient` construction (exchange.rs lines 63-202, auth.rs)

`BasicAuth::get_auth_header` (auth.rs lines 31-37) base64-encodes
`username:password`; `verify_basic_auth` (exchange.rs lines 149-184)
sends one probe request and fails with an `AuthError` carrying the HTTP
status on a non-2xx reply.  The HTTP round trip is modelled by the
numeric status of the server's reply. -/

/-- The base64 standard alphabet. -/
def b64Char (n : Nat) : Char :=
  "ABCDEFGHIJKLMNOPQRSTUVWXYZabcdefghijklmnopqrstuvwxyz0123456789+/".data.getD n 'A'

/-- Standard base64 with `=` padding over a byte list. -/
def b64Encode : List Nat → List Char
  | [] => []
  | [a] => [b64Char (a / 4), b64Char (a % 4 * 16), '=', '=']
  | [a, b] => [b64Char (a / 4), b64Char (a % 4 * 16 + b / 16), b64Char (b % 16 * 4), '=']
  | a :: b :: c :: rest =>
    b64Char (a / 4) :: b64Char (a % 4 * 16 + b / 16) ::
    b64Char (b % 16 * 4 + c / 64) :: b64Char (c % 64) :: b64Encode rest

/-- Model of `BasicAuth::get_auth_header` (auth.rs lines 31-37). -/
def basic_auth_header (username password : List Char) : List Char :=
  "Basic ".data ++ b64Encode (strBytes (username ++ ':' :: password))

/-- `response.status().is_success()`: a 2xx HTTP status. -/
def statusIsSuccess (status : Nat) : Bool :=
  200 ≤ status ∧ status ≤ 299

/-- The observable state of an `ExchangeClient` (exchange.rs lines 63-69):
the remote base URL and the cached authorization header. -/
structure ExchangeClientState where
  base_url : List Char
  token : Option (List Char)
deriving DecidableEq, Repr

/-- Model of `ExchangeClient::authenticate` for the basic-auth variant
(exchange.rs lines 127-147 with `verify_basic_auth`, lines 149-184):
the token is stored first, then the probe request is verified; a non-2xx
status yields an `AuthError` naming the status.  Returns the `Result`
together with the mutated client, since the token assignment happens
before the verification can fail. -/
def authenticate_basic (c : ExchangeClientState) (username password : List Char)
    (status : Nat) : Except ExchangeError Unit × ExchangeClientState :=
  let c1 := { c with token := some (basic_auth_header username password) }
  if statusIsSuccess status then (.ok (), c1)
  else (.error (.AuthError ("Authentication failed with status code: ".data ++
      (Nat.repr status).data)), c1)

/-- Model of `ExchangeClient::new_with_basic_auth` (exchange.rs lines
72-98): an empty base URL is a `ConfigError`; otherwise the client is
built and `authenticate` is called — but its `Result` is dropped on the
floor at line 95 (`exchange_client.authenticate().await;`, no `?`), so
the constructor returns `Ok` regardless of the handshake outcome.
`handshake_status` is the HTTP status of the verification probe. -/
def new_with_basic_auth (base_url username password : List Char)
    (handshake_status : Nat) : Except ExchangeError ExchangeClientState :=
  if base_url = [] then
    .error (.ConfigError "Exchange URL not configured".data)
  else
    let c0 : ExchangeClientState := { base_url := base_url, token := none }
    let (_dropped, c1) := authenticate_basic c0 username password handshake_status
    .ok c1

/-! ### OAuth2 token lifecycle (auth/oauth2.rs lines 94-330)

Instants are modelled as seconds since the epoch (`Nat`).
`SystemTime::duration_since(t)` is `Ok` exactly when the receiver is not
earlier than `t`; `SystemTime::checked_sub(d)` is `none` when the result
would precede the epoch.  The two grant requests are network I/O and are
modelled by an oracle giving each grant's outcome; `get_token` reports
which grant calls it performed. -/

structure OAuth2Token where
  access_token : List Char
  token_type : List Char
  expires_at : Nat
  refresh_token : Option (List Char)
  scope : Option (List Char)
deriving DecidableEq, Repr

/-- Model of `OAuth2Token::is_expired` (oauth2.rs lines 117-122). -/
def is_expired (now : Nat) (tok : OAuth2Token) : Bool :=
  tok.expires_at ≤ now

/-- Model of `OAuth2Token::is_expiring_soon` (oauth2.rs lines 124-130):
`now.duration_since(expires_at.checked_sub(buffer).unwrap_or(expires_at))`
is `Ok` iff `now` has reached the (epoch-saturated) threshold. -/
def is_expiring_soon (now : Nat) (tok : OAuth2Token) (buffer_seconds : Nat) : Bool :=
  let threshold :=
    if buffer_seconds ≤ tok.expires_at then tok.expires_at - buffer_seconds
    else tok.expires_at
  threshold ≤ now

/-- A grant request performed against the token endpoint. -/
inductive GrantCall where
  | clientCredentials : GrantCall
  | refreshGrant : List Char → GrantCall
deriving DecidableEq, Repr

inductive OAuth2Error where
  | RequestError : OAuth2Error
  | ResponseError : List Char → OAuth2Error
  | ParseError : List Char → OAuth2Error
  | TokenExpired : OAuth2Error
  | ConfigError : List Char → OAuth2Error
deriving DecidableEq, Repr

/-- Outcomes of the token-endpoint round trips (network I/O oracle):
what `acquire_token_client_credentials` and `refresh_token` would return
for the current remote state. -/
structure GrantEnv where
  clientCredentials : Except OAuth2Error OAuth2Token
  refreshGrant : List Char → Except OAuth2Error OAuth2Token

/-- Model of `OAuth2Client::get_token` (oauth2.rs lines 310-330) at one
instant `now`, for a client currently holding `cur`.  Returns the call's
result, the new `current_token` field (both grants overwrite it only on
success, oauth2.rs lines 210/303), and the list of grant calls performed
(in order; the source performs at most one per invocation). -/
def get_token (env : GrantEnv) (now : Nat) (cur : Option OAuth2Token) :
    Except OAuth2Error OAuth2Token × Option OAuth2Token × List GrantCall :=
  match cur with
  | some tok =>
    if is_expiring_soon now tok 300 then
      match tok.refresh_token with
      | some rt =>
        match env.refreshGrant rt with
        | .ok t => (.ok t, some t, [.refreshGrant rt])
        | .error e => (.error e, some tok, [.refreshGrant rt])
      | none =>
        match env.clientCredentials with
        | .ok t => (.ok t, some t, [.clientCredentials])
        | .error e => (.error e, some tok, [.clientCredentials])
    else (.ok tok, some tok, [])
  | none =>
    match env.clientCredentials with
    | .ok t => (.ok t, some t, [.clientCredentials])
    | .error e => (.error e, none, [.clientCredentials])

/-! ### IMAP session engine (protocols/imap.rs lines 73-277)

One iteration of the command loop of `handle_imap_client`, processing one
received line.  The socket writes become a list of reply lines; the three
remote operations and the `ExchangeClient` construction performed by
`LOGIN` are modelled by an oracle environment, and the calls actually
made are reported so that "performs no remote call" is a provable fact.
`to_uppercase` is modelled for ASCII command words. -/

/-- A remote operation the handler can invoke on its translation client. -/
inductive RemoteCall where
  | newClient : RemoteCall
  | listFolders : RemoteCall
  | selectFolder : RemoteCall
  | fetchMessages : RemoteCall
deriving DecidableEq, Repr

/-- The per-connection mutable state of the loop (imap.rs lines 82-84). -/
structure SessionState where
  authenticated : Bool
  selected_mailbox : Option (List Char)
  has_client : Bool
deriving DecidableEq, Repr

/-- Oracle for the translation client's remote results. -/
structure ImapEnv where
  loginOk : Bool
  listFolders : List Char → List Char → Except ExchangeError (List (List Char))
  selectFolder : List Char → Except ExchangeError FolderStats
  fetchMessages : List Char → List Char → List Char → Except ExchangeError (List Message)

/-- What one loop iteration produced: the reply lines written to the
socket, the state afterwards, the remote calls performed, and whether the
loop terminates (`LOGOUT`). -/
structure StepResult where
  replies : List (List Char)
  state : SessionState
  calls : List RemoteCall
  closed : Bool
deriving DecidableEq, Repr

/-- One iteration of the command loop of `handle_imap_client`
(imap.rs lines 87-274), for the line just read. -/
def imap_step (env : ImapEnv) (st : SessionState) (line : List Char) : StepResult :=
  match splitnChar 3 ' ' (trimWs line) with
  | tag :: cmdRaw :: rest =>
    let cmd := upperAscii cmdRaw
    if cmd = "CAPABILITY".data then
      ⟨["* CAPABILITY IMAP4rev1 LITERAL+ SASL-IR LOGIN-REFERRALS AUTH=PLAIN AUTH=LOGIN".data,
        tag ++ " OK CAPABILITY completed".data], st, [], false⟩
    else if cmd = "LOGIN".data then
      match rest with
      | [] => ⟨[tag ++ " BAD Missing credentials".data], st, [], false⟩
      | args :: _ =>
        match splitnChar 2 ' ' args with
        | [u, p] =>
          let _username := trimMatchChar '"' u
          let _password := trimMatchChar '"' p
          if env.loginOk then
            ⟨[tag ++ " OK LOGIN completed".data],
             { st with authenticated := true, has_client := true }, [.newClient], false⟩
          else ⟨[tag ++ " NO LOGIN failed".data], st, [.newClient], false⟩
        | _ => ⟨[tag ++ " BAD Invalid credentials format".data], st, [], false⟩
    else if cmd = "LIST".data then
      if st.authenticated = false then
        ⟨[tag ++ " NO Not authenticated".data], st, [], false⟩
      else
        let listArgs := match rest with
          | a :: _ => splitnChar 2 ' ' a
          | [] => [[], []]
        let reference := trimMatchChar '"' (listArgs.getD 0 [])
        let pattern := trimMatchChar '"' (listArgs.getD 1 "*".data)
        if st.has_client then
          match env.listFolders reference pattern with
          | .ok folders =>
            ⟨(folders.map fun f =>
                "* LIST (\\HasNoChildren) \"/\" \"".data ++ f ++ "\"".data) ++
              [tag ++ " OK LIST completed".data], st, [.listFolders], false⟩
          | .error _ => ⟨[tag ++ " NO LIST failed".data], st, [.listFolders], false⟩
        else ⟨[tag ++ " NO Exchange client not initialized".data], st, [], false⟩
    else if cmd = "SELECT".data then
      if st.authenticated = false then
        ⟨[tag ++ " NO Not authenticated".data], st, [], false⟩
      else
        match rest with
        | [] => ⟨[tag ++ " BAD Missing mailbox name".data], st, [], false⟩
        | a :: _ =>
          let mailbox := trimMatchChar '"' a
          if st.has_client then
            match env.selectFolder mailbox with
            | .ok stats =>
              ⟨["* ".data ++ (Nat.repr stats.exists_).data ++ " EXISTS".data,
                "* ".data ++ (Nat.repr stats.recent).data ++ " RECENT".data,
                "* OK [UNSEEN ".data ++ (Nat.repr stats.unseen).data ++
                  "] First unseen message".data,
                "* OK [UIDVALIDITY ".data ++ (Nat.repr stats.uid_validity).data ++
                  "] UIDs valid".data,
                "* OK [UIDNEXT ".data ++ (Nat.repr stats.uid_next).data ++
                  "] Predicted next UID".data,
                "* FLAGS (\\Answered \\Flagged \\Deleted \\Seen \\Draft)".data,
                "* OK [PERMANENTFLAGS (\\Answered \\Flagged \\Deleted \\Seen \\Draft \\*)]".data,
                tag ++ " OK [READ-WRITE] SELECT completed".data],
               { st with selected_mailbox := some mailbox }, [.selectFolder], false⟩
            | .error _ => ⟨[tag ++ " NO SELECT failed".data], st, [.selectFolder], false⟩
          else ⟨[tag ++ " NO Exchange client not initialized".data], st, [], false⟩
    else if cmd = "FETCH".data then
      if st.authenticated = false then
        ⟨[tag ++ " NO Not authenticated".data], st, [], false⟩
      else if st.selected_mailbox = none then
        ⟨[tag ++ " NO No mailbox selected".data], st, [], false⟩
      else
        match rest with
        | [] => ⟨[tag ++ " BAD Missing fetch arguments".data], st, [], false⟩
        | a :: _ =>
          match splitnChar 2 ' ' a with
          | [sequence_set, items] =>
            if st.has_client then
              match env.fetchMessages (st.selected_mailbox.getD []) sequence_set items with
              | .ok messages =>
                ⟨(messages.map fun m =>
                    "* ".data ++ (Nat.repr m.sequence).data ++ " FETCH ".data ++ m.data) ++
                  [tag ++ " OK FETCH completed".data], st, [.fetchMessages], false⟩
              | .error _ => ⟨[tag ++ " NO FETCH failed".data], st, [.fetchMessages], false⟩
            else ⟨[tag ++ " NO Exchange client not initialized".data], st, [], false⟩
          | _ => ⟨[tag ++ " BAD Invalid fetch arguments".data], st, [], false⟩
    else if cmd = "LOGOUT".data then
      ⟨["* BYE IMAP session terminating".data, tag ++ " OK LOGOUT completed".data],
       st, [], true⟩
    else ⟨[tag ++ " BAD Command not implemented".data], st, [], false⟩
  | _ => ⟨["* BAD Invalid command".data], st, [], false⟩


/-! ### Lemmas about splitting -/

theorem splitOnChar_ne_nil (sep : Char) (l : List Char) : splitOnChar sep l ≠ [] := by
  induction l with
  | nil => simp [splitOnChar]
  | cons a l ih =>
    simp only [splitOnChar]
    split
    · simp
    · split
      · simp
      · simp

theorem splitOnChar_of_not_mem {sep : Char} {l : List Char} (h : sep ∉ l) :
    splitOnChar sep l = [l] := by
  induction l with
  | nil => rfl
  | cons a l ih =>
    simp only [List.mem_cons, not_or] at h
    simp only [splitOnChar]
    rw [if_neg (fun hc => h.1 hc.symm), ih h.2]

theorem splitOnChar_append (sep : Char) (xs ys : List Char) :
    splitOnChar sep (xs ++ sep :: ys) = splitOnChar sep xs ++ splitOnChar sep ys := by
  induction xs with
  | nil => simp [splitOnChar]
  | cons a xs ih =>
    simp only [List.cons_append, splitOnChar, List.append_eq]
    by_cases ha : a = sep
    · rw [if_pos ha, if_pos ha, ih]; rfl
    · rw [if_neg ha, if_neg ha, ih]
      rcases h : splitOnChar sep xs with _ | ⟨h1, t1⟩
      · exact absurd h (splitOnChar_ne_nil sep xs)
      · rfl

theorem splitOnChar_pair {p q : List Char} (hp : ':' ∉ p) (hq : ':' ∉ q) :
    splitOnChar ':' (p ++ ':' :: q) = [p, q] := by
  rw [splitOnChar_append, splitOnChar_of_not_mem hp, splitOnChar_of_not_mem hq]
  rfl

/-! ### Lemmas about `parse_u32` -/

theorem parse_u32_lt {s : List Char} {n : Nat} (h : parse_u32 s = some n) : n < 2 ^ 32 := by
  unfold parse_u32 at h
  split_ifs at h with h1 h2
  obtain rfl := Option.some.inj h
  exact h2

theorem parse_u32_digits {s : List Char} {n : Nat} (h : parse_u32 s = some n) :
    ∀ c ∈ s, c.isDigit ∨ c = '+' := by
  unfold parse_u32 at h
  split_ifs at h with h1 h2
  intro c hc
  obtain ⟨-, h12⟩ := h1
  cases s with
  | nil => cases hc
  | cons a r =>
    by_cases ha : a = '+'
    · have hstrip : stripPlus (a :: r) = r := by simp [stripPlus, ha]
      rw [hstrip] at h12
      have hall := List.all_eq_true.mp h12
      rcases List.mem_cons.mp hc with hx | hx
      · right; rw [hx, ha]
      · left; exact hall c hx
    · have hstrip : stripPlus (a :: r) = a :: r := by simp [stripPlus, ha]
      rw [hstrip] at h12
      have hall := List.all_eq_true.mp h12
      left; exact hall c hc

theorem parse_u32_not_colon_comma {s : List Char} {n : Nat} (h : parse_u32 s = some n) :
    ':' ∉ s ∧ ',' ∉ s := by
  refine ⟨fun hmem => ?_, fun hmem => ?_⟩
  · rcases parse_u32_digits h ':' hmem with hd | hp
    · exact absurd hd (by decide)
    · exact absurd hp (by decide)
  · rcases parse_u32_digits h ',' hmem with hd | hp
    · exact absurd hd (by decide)
    · exact absurd hp (by decide)

theorem parse_u32_ne_star {s : List Char} {n : Nat} (h : parse_u32 s = some n) :
    s ≠ ['*'] := by
  intro he
  subst he
  rcases parse_u32_digits h '*' (by simp) with hd | hp
  · exact absurd hd (by decide)
  · exact absurd hp (by decide)

theorem parse_u32_neg {s : List Char} (h : s.head? = some '-') : parse_u32 s = none := by
  cases s with
  | nil => cases h
  | cons a r =>
    simp only [List.head?_cons, Option.some.injEq] at h
    subst h
    have hstrip : stripPlus ('-' :: r) = '-' :: r := by
      simp [stripPlus]
    have hdig : (('-' : Char).isDigit) = false := by decide
    unfold parse_u32
    rw [hstrip, if_neg]
    simp [List.all_cons, hdig]

/-! ### Lemmas about `parsePart` and `parseParts` -/

theorem except_bind_ok {ε α β : Type} (a : α) (f : α → Except ε β) :
    (Except.ok a >>= f : Except ε β) = f a := rfl

theorem except_bind_error {ε α β : Type} (e : ε) (f : α → Except ε β) :
    (Except.error e >>= f : Except ε β) = Except.error e := rfl

theorem parseRangeBound_of_parse {q : List Char} {a : Nat} (h : parse_u32 q = some a) :
    parseRangeBound q = .ok a := by
  unfold parseRangeBound
  rw [if_neg (parse_u32_ne_star h), h]

theorem parseRangeBound_star : parseRangeBound ['*'] = .ok 10 := rfl

theorem parseRangeBound_lt {q : List Char} {n : Nat} (h : parseRangeBound q = .ok n) :
    n < 2 ^ 32 := by
  unfold parseRangeBound at h
  split_ifs at h with h1
  · obtain rfl := Except.ok.inj h
    decide
  · rcases hq : parse_u32 q with - | m
    · rw [hq] at h; cases h
    · rw [hq] at h
      obtain rfl := Except.ok.inj h
      exact parse_u32_lt hq

theorem parseRangeBound_neg {q : List Char} (h : q.head? = some '-') :
    parseRangeBound q = .error (.ParseError ("Invalid sequence number: ".data ++ q)) := by
  have hne : q ≠ ['*'] := by
    intro he; rw [he] at h; cases h
  unfold parseRangeBound
  rw [if_neg hne, parse_u32_neg h]

theorem colon_mem_middle (p q : List Char) : (':' : Char) ∈ p ++ ':' :: q := by simp

theorem append_colon_ne_star (p q : List Char) : p ++ ':' :: q ≠ ['*'] := by
  intro he
  have h := colon_mem_middle p q
  rw [he] at h
  simp at h

theorem parsePart_range {p q : List Char} {a b : Nat}
    (hp : parse_u32 p = some a) (hq : parse_u32 q = some b) :
    parsePart (p ++ ':' :: q) = .ok (List.range' (min a b) (max a b + 1 - min a b)) := by
  have hsplit := splitOnChar_pair (parse_u32_not_colon_comma hp).1 (parse_u32_not_colon_comma hq).1
  unfold parsePart
  rw [if_neg (append_colon_ne_star p q), if_pos (colon_mem_middle p q)]
  simp [hsplit, parseRangeBound_of_parse hp, parseRangeBound_of_parse hq, except_bind_ok,
    List.getD]

theorem parsePart_star_end {p : List Char} {a : Nat} (hp : parse_u32 p = some a) :
    parsePart (p ++ ':' :: ['*']) = .ok (List.range' (min a 10) (max a 10 + 1 - min a 10)) := by
  have hsplit := splitOnChar_pair (p := p) (q := ['*']) (parse_u32_not_colon_comma hp).1 (by decide)
  unfold parsePart
  rw [if_neg (append_colon_ne_star p ['*']), if_pos (colon_mem_middle p ['*'])]
  simp [hsplit, parseRangeBound_of_parse hp, parseRangeBound_star, except_bind_ok,
    List.getD]

theorem parsePart_ok_lt {p : List Char} {xs : List Nat} (h : parsePart p = .ok xs) :
    ∀ x ∈ xs, x < 2 ^ 32 := by
  by_cases h1 : p = ['*']
  · subst h1
    rw [show parsePart ['*'] = .ok (List.range' 1 10) from by decide] at h
    obtain rfl := Except.ok.inj h
    intro x hx
    have := List.mem_range'.mp hx
    omega
  · by_cases h2 : ':' ∈ p
    · simp only [parsePart, if_neg h1, if_pos h2] at h
      by_cases h3 : (splitOnChar ':' p).length = 2
      · rw [if_neg (not_not_intro h3)] at h
        rcases hs : parseRangeBound ((splitOnChar ':' p).getD 0 []) with e | sv
        · rw [hs, except_bind_error] at h; cases h
        · rw [hs, except_bind_ok] at h
          rcases he : parseRangeBound ((splitOnChar ':' p).getD 1 []) with e | ev
          · rw [he, except_bind_error] at h; cases h
          · rw [he, except_bind_ok] at h
            obtain rfl := Except.ok.inj h
            intro x hx
            have hmem := List.mem_range'.mp hx
            have hsv := parseRangeBound_lt hs
            have hev := parseRangeBound_lt he
            have hminmax : min sv ev ≤ max sv ev := min_le_max
            have hmax : max sv ev < 2 ^ 32 := by
              rcases max_choice sv ev with hm | hm <;> omega
            rcases hmem with ⟨i, hi, rfl⟩
            omega
      · rw [if_pos h3] at h; cases h
    · simp only [parsePart, if_neg h1, if_neg h2] at h
      rcases hp : parse_u32 p with - | m
      · rw [hp] at h; cases h
      · rw [hp] at h
        obtain rfl := Except.ok.inj h
        intro x hx
        obtain rfl := List.mem_singleton.mp hx
        exact parse_u32_lt hp

theorem parsePart_ok_ne_nil {p : List Char} {xs : List Nat} (h : parsePart p = .ok xs) :
    xs ≠ [] := by
  by_cases h1 : p = ['*']
  · subst h1
    rw [show parsePart ['*'] = .ok (List.range' 1 10) from by decide] at h
    obtain rfl := Except.ok.inj h
    decide
  · by_cases h2 : ':' ∈ p
    · simp only [parsePart, if_neg h1, if_pos h2] at h
      by_cases h3 : (splitOnChar ':' p).length = 2
      · rw [if_neg (not_not_intro h3)] at h
        rcases hs : parseRangeBound ((splitOnChar ':' p).getD 0 []) with e | sv
        · rw [hs, except_bind_error] at h; cases h
        · rw [hs, except_bind_ok] at h
          rcases he : parseRangeBound ((splitOnChar ':' p).getD 1 []) with e | ev
          · rw [he, except_bind_error] at h; cases h
          · rw [he, except_bind_ok] at h
            obtain rfl := Except.ok.inj h
            have hminmax : min sv ev ≤ max sv ev := min_le_max
            intro hnil
            have hlen := congrArg List.length hnil
            rw [List.length_range'] at hlen
            simp only [List.length_nil] at hlen
            omega
      · rw [if_pos h3] at h; cases h
    · simp only [parsePart, if_neg h1, if_neg h2] at h
      rcases hp : parse_u32 p with - | m
      · rw [hp] at h; cases h
      · rw [hp] at h
        obtain rfl := Except.ok.inj h
        simp

theorem parsePart_neg {p : List Char}
    (hneg : ∃ q ∈ splitOnChar ':' p, q.head? = some '-') :
    ∃ e, parsePart p = .error e := by
  obtain ⟨q, hq, hh⟩ := hneg
  by_cases h1 : p = ['*']
  · subst h1
    rw [show splitOnChar ':' ['*'] = [['*']] from by decide] at hq
    obtain rfl := List.mem_singleton.mp hq
    exact absurd hh (by decide)
  · by_cases h2 : ':' ∈ p
    · simp only [parsePart, if_neg h1, if_pos h2]
      by_cases h3 : (splitOnChar ':' p).length = 2
      · rw [if_neg (not_not_intro h3)]
        obtain ⟨r0, r1, hrp⟩ := List.length_eq_two.mp h3
        rw [hrp] at hq
        rw [hrp]
        simp only [List.getD_cons_zero, List.getD_cons_succ]
        rcases List.mem_cons.mp hq with rfl | hq1
        · rw [parseRangeBound_neg hh, except_bind_error]
          exact ⟨_, rfl⟩
        · obtain rfl := List.mem_singleton.mp hq1
          rcases hs : parseRangeBound r0 with e | sv
          · rw [except_bind_error]
            exact ⟨e, rfl⟩
          · rw [except_bind_ok, parseRangeBound_neg hh, except_bind_error]
            exact ⟨_, rfl⟩
      · rw [if_pos h3]
        exact ⟨_, rfl⟩
    · rw [splitOnChar_of_not_mem h2] at hq
      obtain rfl := List.mem_singleton.mp hq
      simp only [parsePart, if_neg h1, if_neg h2]
      rw [parse_u32_neg hh]
      exact ⟨_, rfl⟩

theorem parseParts_append {P1 P2 : List (List Char)} {l1 l2 : List Nat}
    (h1 : parseParts P1 = .ok l1) (h2 : parseParts P2 = .ok l2) :
    parseParts (P1 ++ P2) = .ok (l1 ++ l2) := by
  induction P1 generalizing l1 with
  | nil =>
    obtain rfl := Except.ok.inj h1
    simpa using h2
  | cons p rest ih =>
    simp only [parseParts] at h1
    rcases hp : parsePart p with e | xs
    · rw [hp, except_bind_error] at h1; cases h1
    · rw [hp, except_bind_ok] at h1
      rcases hr : parseParts rest with e | ys
      · rw [hr, except_bind_error] at h1; cases h1
      · rw [hr, except_bind_ok] at h1
        obtain rfl := Except.ok.inj h1
        simp only [List.cons_append, parseParts, List.append_eq]
        rw [hp, except_bind_ok, ih hr, except_bind_ok, List.append_assoc]

theorem parseParts_error_of_mem {P : List (List Char)} {p : List Char} (hp : p ∈ P)
    {e : ExchangeError} (he : parsePart p = .error e) :
    ∃ e2, parseParts P = .error e2 := by
  induction P with
  | nil => cases hp
  | cons q rest ih =>
    rcases List.mem_cons.mp hp with rfl | hmem
    · refine ⟨e, ?_⟩
      simp only [parseParts]
      rw [he, except_bind_error]
    · rcases hq : parsePart q with e1 | xs
      · refine ⟨e1, ?_⟩
        simp only [parseParts]
        rw [hq, except_bind_error]
      · obtain ⟨e2, h2⟩ := ih hmem
        refine ⟨e2, ?_⟩
        simp only [parseParts]
        rw [hq, except_bind_ok, h2, except_bind_error]

theorem parseParts_ok_forall {P : List (List Char)} {l : List Nat}
    (h : parseParts P = .ok l) :
    ∀ x ∈ l, ∃ p ∈ P, ∃ xs, parsePart p = .ok xs ∧ x ∈ xs := by
  induction P generalizing l with
  | nil =>
    obtain rfl := Except.ok.inj h
    intro x hx
    cases hx
  | cons p rest ih =>
    simp only [parseParts] at h
    rcases hp : parsePart p with e | xs
    · rw [hp, except_bind_error] at h; cases h
    · rw [hp, except_bind_ok] at h
      rcases hr : parseParts rest with e | ys
      · rw [hr, except_bind_error] at h; cases h
      · rw [hr, except_bind_ok] at h
        obtain rfl := Except.ok.inj h
        intro x hx
        rcases List.mem_append.mp hx with hx | hx
        · exact ⟨p, List.mem_cons_self p rest, xs, hp, hx⟩
        · obtain ⟨q, hq, zs, hz, hxz⟩ := ih hr x hx
          exact ⟨q, List.mem_cons_of_mem p hq, zs, hz, hxz⟩

theorem parseParts_cons_ok_ne_nil {p : List Char} {rest : List (List Char)} {l : List Nat}
    (h : parseParts (p :: rest) = .ok l) : l ≠ [] := by
  simp only [parseParts] at h
  rcases hp : parsePart p with e | xs
  · rw [hp, except_bind_error] at h; cases h
  · rw [hp, except_bind_ok] at h
    rcases hr : parseParts rest with e | ys
    · rw [hr, except_bind_error] at h; cases h
    · rw [hr, except_bind_ok] at h
      obtain rfl := Except.ok.inj h
      have := parsePart_ok_ne_nil hp
      intro hnil
      exact this (List.append_eq_nil.mp hnil).1

theorem parseParts_single (p : List Char) : parseParts [p] = parsePart p := by
  simp only [parseParts]
  rcases hp : parsePart p with e | xs
  · rw [except_bind_error]
  · rw [except_bind_ok, except_bind_ok, List.append_nil]

/-! ### Claim theorems for the sequence parser -/

theorem parse_sequence_set_single {s : List Char} (h : ',' ∉ s) :
    parse_sequence_set s = parsePart s := by
  unfold parse_sequence_set
  rw [splitOnChar_of_not_mem h, parseParts_single]

theorem comma_not_mem_colon_append {p q : List Char} (hp : ',' ∉ p) (hq : ',' ∉ q) :
    ',' ∉ p ++ ':' :: q := by
  intro hmem
  rcases List.mem_append.mp hmem with h | h
  · exact hp h
  · rcases List.mem_cons.mp h with h | h
    · exact absurd h (by decide)
    · exact hq h

/-- C3 counterexample: the claim says a token `0` is rejected and every
successful output holds only positive integers, but `parse_sequence_set`
maps the input `"0"` to a successful singleton `[0]` — Rust's
`"0".parse::<u32>()` succeeds, so zero is accepted and appears in the
output. -/
theorem C3_counterexample_zero_accepted : parse_sequence_set "0".data = .ok [0] := by
  decide

/-- C3 (amended): sequence-set parsing rejects negative numbers — any
input in which some comma-separated part has a colon-component beginning
with `-` (a negative standalone token or range bound) is a parse error —
and every successfully parsed output contains only `u32`-range
(nonnegative, below `2^32`) integers; zero, however, is accepted. -/
theorem C3_negatives_rejected_outputs_u32 :
    (∀ s : List Char,
        (∃ p ∈ splitOnChar ',' s, ∃ q ∈ splitOnChar ':' p, q.head? = some '-') →
        ∃ e, parse_sequence_set s = .error e) ∧
    (∀ (s : List Char) (l : List Nat),
        parse_sequence_set s = .ok l → ∀ x ∈ l, x < 2 ^ 32) := by
  constructor
  · intro s hneg
    obtain ⟨p, hp, hq⟩ := hneg
    obtain ⟨e, he⟩ := parsePart_neg hq
    exact parseParts_error_of_mem hp he
  · intro s l h x hx
    obtain ⟨p, -, xs, hxs, hmem⟩ := parseParts_ok_forall h x hx
    exact parsePart_ok_lt hxs x hmem

theorem C3_negatives_rejected_outputs_u32_witness :
    (∃ e, parse_sequence_set "1,-2:4".data = .error e) ∧
    (∀ x ∈ ([2, 1, 2, 3, 2] : List Nat), x < 2 ^ 32) :=
  ⟨C3_negatives_rejected_outputs_u32.1 "1,-2:4".data (by decide),
   C3_negatives_rejected_outputs_u32.2 "2,1:3,2".data [2, 1, 2, 3, 2] (by decide)⟩

/-- C4: a colon range is order-independent — for positive `a`, `b` given
by any accepted decimal spellings `p`, `q`, parsing `p:q` yields the
ascending closed interval from `min a b` to `max a b` and equals parsing
`q:p`; concretely `parse "3:1" = parse "1:3" = [1,2,3]`; and output is
accumulated in request order of the comma-separated tokens without
deduplication (parsing `s1 ++ "," ++ s2` concatenates the two outputs). -/
theorem C4_range_order_independent :
    (∀ (p q : List Char) (a b : Nat), 0 < a → 0 < b →
        parse_u32 p = some a → parse_u32 q = some b →
        parse_sequence_set (p ++ ':' :: q) =
            .ok (List.range' (min a b) (max a b + 1 - min a b)) ∧
        parse_sequence_set (p ++ ':' :: q) = parse_sequence_set (q ++ ':' :: p)) ∧
    parse_sequence_set "3:1".data = .ok [1, 2, 3] ∧
    parse_sequence_set "1:3".data = .ok [1, 2, 3] ∧
    (∀ (s1 s2 : List Char) (l1 l2 : List Nat),
        parse_sequence_set s1 = .ok l1 → parse_sequence_set s2 = .ok l2 →
        parse_sequence_set (s1 ++ ',' :: s2) = .ok (l1 ++ l2)) := by
  refine ⟨?_, by decide, by decide, ?_⟩
  · intro p q a b _ _ hp hq
    have hcp := (parse_u32_not_colon_comma hp).2
    have hcq := (parse_u32_not_colon_comma hq).2
    have e1 : parse_sequence_set (p ++ ':' :: q) =
        .ok (List.range' (min a b) (max a b + 1 - min a b)) := by
      rw [parse_sequence_set_single (comma_not_mem_colon_append hcp hcq)]
      exact parsePart_range hp hq
    have e2 : parse_sequence_set (q ++ ':' :: p) =
        .ok (List.range' (min b a) (max b a + 1 - min b a)) := by
      rw [parse_sequence_set_single (comma_not_mem_colon_append hcq hcp)]
      exact parsePart_range hq hp
    refine ⟨e1, ?_⟩
    rw [e1, e2, min_comm, max_comm]
  · intro s1 s2 l1 l2 h1 h2
    unfold parse_sequence_set at h1 h2 ⊢
    rw [splitOnChar_append]
    exact parseParts_append h1 h2

theorem C4_range_order_independent_witness :
    (parse_sequence_set ("3".data ++ ':' :: "1".data) =
        .ok (List.range' (min 3 1) (max 3 1 + 1 - min 3 1)) ∧
      parse_sequence_set ("3".data ++ ':' :: "1".data) =
        parse_sequence_set ("1".data ++ ':' :: "3".data)) ∧
    parse_sequence_set ("1,2".data ++ ',' :: "5:6".data) = .ok ([1, 2] ++ [5, 6]) :=
  ⟨C4_range_order_independent.1 "3".data "1".data 3 1 (by decide) (by decide)
      (by decide) (by decide),
   C4_range_order_independent.2.2.2 "1,2".data "5:6".data [1, 2] [5, 6]
      (by decide) (by decide)⟩

/-- C5: `parse_sequence_set` on `""`, `"a"`, `"1:"`, `":5"` fails with a
parse error whose message embeds the offending token (for `""`, `"1:"`
and `":5"` the offending token is the empty bound, so the message ends
with `"Invalid sequence number: "`); `"*"` succeeds with the non-empty
bounded sequence `1..10`; a part with a colon that does not split into
exactly two bounds is always a parse error; and a successful parse is
never the empty list. -/
theorem C5_malformed_inputs_error :
    parse_sequence_set "".data = .error (.ParseError "Invalid sequence number: ".data) ∧
    parse_sequence_set "a".data = .error (.ParseError "Invalid sequence number: a".data) ∧
    parse_sequence_set "1:".data = .error (.ParseError "Invalid sequence number: ".data) ∧
    parse_sequence_set ":5".data = .error (.ParseError "Invalid sequence number: ".data) ∧
    (parse_sequence_set "*".data = .ok [1, 2, 3, 4, 5, 6, 7, 8, 9, 10] ∧
      ([1, 2, 3, 4, 5, 6, 7, 8, 9, 10] : List Nat) ≠ [] ∧
      ∀ x ∈ ([1, 2, 3, 4, 5, 6, 7, 8, 9, 10] : List Nat), x ≤ 10) ∧
    (∀ (s p : List Char), p ∈ splitOnChar ',' s → ':' ∈ p →
        (splitOnChar ':' p).length ≠ 2 → ∃ e, parse_sequence_set s = .error e) ∧
    (∀ (s : List Char) (l : List Nat), parse_sequence_set s = .ok l → l ≠ []) := by
  refine ⟨by decide, by decide, by decide, by decide, ⟨by decide, by decide, by decide⟩, ?_, ?_⟩
  · intro s p hps hcolon hlen
    have hne : p ≠ ['*'] := by
      intro he
      rw [he] at hcolon
      exact absurd hcolon (by decide)
    have herr : parsePart p = .error (.ParseError ("Invalid range: ".data ++ p)) := by
      simp only [parsePart, if_neg hne, if_pos hcolon]
      rw [if_pos hlen]
    exact parseParts_error_of_mem hps herr
  · intro s l h
    unfold parse_sequence_set at h
    rcases hsp : splitOnChar ',' s with - | ⟨p, rest⟩
    · exact absurd hsp (splitOnChar_ne_nil ',' s)
    · rw [hsp] at h
      exact parseParts_cons_ok_ne_nil h

theorem C5_malformed_inputs_error_witness :
    (∃ e, parse_sequence_set "4:5:6".data = .error e) ∧ ([7] : List Nat) ≠ [] :=
  ⟨C5_malformed_inputs_error.2.2.2.2.2.1 "4:5:6".data "4:5:6".data
      (by decide) (by decide) (by decide),
   C5_malformed_inputs_error.2.2.2.2.2.2 "7".data [7] (by decide)⟩

/-- C9: the wildcard is a hardcoded constant range — `parse "*"` is
exactly `[1,...,10]` whatever the mailbox holds, and a `*` range bound is
treated as the number `10`, so `parse "5:*" = [5,...,10]` and in general
`parse (p ++ ":*")` for a numeral `p` of value `a` is the interval
between `min a 10` and `max a 10`. -/
theorem C9_wildcard_hardcoded :
    parse_sequence_set "*".data = .ok [1, 2, 3, 4, 5, 6, 7, 8, 9, 10] ∧
    parse_sequence_set "5:*".data = .ok [5, 6, 7, 8, 9, 10] ∧
    (∀ (p : List Char) (a : Nat), parse_u32 p = some a →
        parse_sequence_set (p ++ ':' :: ['*']) =
          .ok (List.range' (min a 10) (max a 10 + 1 - min a 10))) := by
  refine ⟨by decide, by decide, ?_⟩
  intro p a hp
  have hcp := (parse_u32_not_colon_comma hp).2
  rw [parse_sequence_set_single (comma_not_mem_colon_append hcp (by decide))]
  exact parsePart_star_end hp

theorem C9_wildcard_hardcoded_witness :
    parse_sequence_set ("15".data ++ ':' :: ['*']) =
      .ok (List.range' (min 15 10) (max 15 10 + 1 - min 15 10)) :=
  C9_wildcard_hardcoded.2.2 "15".data 15 (by decide)

/-! ### Claim theorems for `select_folder`, client construction, OAuth2 -/

theorem foldl_add_mod (M : Nat) (l : List Nat) :
    ∀ acc, acc < M → l.foldl (fun a b => (a + b) % M) acc = (acc + l.sum) % M := by
  induction l with
  | nil =>
    intro acc hacc
    simp [Nat.mod_eq_of_lt hacc]
  | cons b l ih =>
    intro acc hacc
    have hm : 0 < M := Nat.pos_of_ne_zero (by omega)
    simp only [List.foldl_cons, List.sum_cons]
    rw [ih ((acc + b) % M) (Nat.mod_lt _ hm), Nat.mod_add_mod]
    ring_nf

/-- C10: on a successful HTTP status, `select_folder` returns stats that
are a deterministic function of the folder name alone — `exists = 125`,
`recent = 5`, `unseen = 10`, `uid_next = 1000`, and `uid_validity` equal
to the sum of the folder name's UTF-8 bytes reduced modulo `2^32`
(the `u32` wrapping sum of exchange.rs line 364). -/
theorem C10_select_folder_hardcoded_stats :
    ∀ folder_name : List Char,
      select_folder true folder_name =
        .ok { exists_ := 125, recent := 5, unseen := 10,
              uid_validity := (strBytes folder_name).sum % 2 ^ 32, uid_next := 1000 } := by
  intro folder_name
  unfold select_folder uid_validity_of
  rw [if_pos rfl]
  rw [foldl_add_mod (2 ^ 32) (strBytes folder_name) 0 (by norm_num)]
  rw [Nat.zero_add]

/-- C1 (code-bug evidence): `new_with_basic_auth` checks the empty base
URL (configuration error propagates), and the `authenticate` handshake
does fail with an `AuthError` on a rejected probe (HTTP 401) — but the
constructor drops that `Result` at exchange.rs line 95 and returns a
successfully constructed client anyway, contradicting the specified
contract that construction fails when the handshake is rejected. -/
theorem C1_handshake_rejection_ignored :
    (authenticate_basic { base_url := "https://mail.example.com".data, token := none }
        "bob".data "secret".data 401).1 =
      .error (.AuthError "Authentication failed with status code: 401".data) ∧
    new_with_basic_auth "https://mail.example.com".data "bob".data "secret".data 401 =
      .ok { base_url := "https://mail.example.com".data,
            token := some (basic_auth_header "bob".data "secret".data) } ∧
    new_with_basic_auth [] "bob".data "secret".data 200 =
      .error (.ConfigError "Exchange URL not configured".data) :=
  ⟨by decide, by decide, by decide⟩

/-- C6: `get_token` holds for every token whose expiry instant lies at
least 300 seconds after the epoch (every realistic token): with no held
token it performs exactly one client-credentials acquisition; a held
token expiring within the 300-second look-ahead triggers exactly one
refresh-grant call when a refresh token is present and exactly one
client-credentials acquisition otherwise (a single attempt whose outcome
is returned as-is, no retry); any other held token is returned unchanged
with no grant call at all. -/
theorem C6_get_token_contract :
    (∀ (env : GrantEnv) (now : Nat),
        (get_token env now none).2.2 = [GrantCall.clientCredentials] ∧
        (get_token env now none).1 = env.clientCredentials) ∧
    (∀ (env : GrantEnv) (now : Nat) (tok : OAuth2Token) (rt : List Char),
        300 ≤ tok.expires_at → tok.expires_at ≤ now + 300 →
        tok.refresh_token = some rt →
        (get_token env now (some tok)).2.2 = [GrantCall.refreshGrant rt] ∧
        (get_token env now (some tok)).1 = env.refreshGrant rt) ∧
    (∀ (env : GrantEnv) (now : Nat) (tok : OAuth2Token),
        300 ≤ tok.expires_at → tok.expires_at ≤ now + 300 →
        tok.refresh_token = none →
        (get_token env now (some tok)).2.2 = [GrantCall.clientCredentials] ∧
        (get_token env now (some tok)).1 = env.clientCredentials) ∧
    (∀ (env : GrantEnv) (now : Nat) (tok : OAuth2Token),
        now + 300 < tok.expires_at →
        get_token env now (some tok) = (.ok tok, some tok, [])) := by
  refine ⟨?_, ?_, ?_, ?_⟩
  · intro env now
    unfold get_token
    rcases env.clientCredentials with e | t <;> simp
  · intro env now tok rt hepoch hexp hrt
    have hsoon : is_expiring_soon now tok 300 = true := by
      unfold is_expiring_soon
      rw [if_pos hepoch]
      simpa using by omega
    simp only [get_token, hsoon, hrt, if_true]
    rcases env.refreshGrant rt with e | t <;> simp
  · intro env now tok hepoch hexp hrt
    have hsoon : is_expiring_soon now tok 300 = true := by
      unfold is_expiring_soon
      rw [if_pos hepoch]
      simpa using by omega
    simp only [get_token, hsoon, hrt, if_true]
    rcases env.clientCredentials with e | t <;> simp
  · intro env now tok hexp
    have hsoon : is_expiring_soon now tok 300 = false := by
      unfold is_expiring_soon
      split_ifs with h
      · simpa using by omega
      · simpa using by omega
    simp [get_token, hsoon]

def sampleOAuthToken (rt : Option (List Char)) (e : Nat) : OAuth2Token :=
  { access_token := "at".data, token_type := "Bearer".data,
    expires_at := e, refresh_token := rt, scope := none }

def sampleGrantEnv : GrantEnv :=
  { clientCredentials := .ok (sampleOAuthToken none 99000)
    refreshGrant := fun _ => .ok (sampleOAuthToken (some "r2".data) 99000) }

theorem C6_get_token_contract_witness :
    ((get_token sampleGrantEnv 1000 none).2.2 = [GrantCall.clientCredentials] ∧
      (get_token sampleGrantEnv 1000 none).1 = sampleGrantEnv.clientCredentials) ∧
    ((get_token sampleGrantEnv 1000 (some (sampleOAuthToken (some "r1".data) 1200))).2.2 =
        [GrantCall.refreshGrant "r1".data] ∧
      (get_token sampleGrantEnv 1000 (some (sampleOAuthToken (some "r1".data) 1200))).1 =
        sampleGrantEnv.refreshGrant "r1".data) ∧
    ((get_token sampleGrantEnv 1000 (some (sampleOAuthToken none 1200))).2.2 =
        [GrantCall.clientCredentials] ∧
      (get_token sampleGrantEnv 1000 (some (sampleOAuthToken none 1200))).1 =
        sampleGrantEnv.clientCredentials) ∧
    get_token sampleGrantEnv 1000 (some (sampleOAuthToken none 5000)) =
      (.ok (sampleOAuthToken none 5000), some (sampleOAuthToken none 5000), []) :=
  ⟨C6_get_token_contract.1 sampleGrantEnv 1000,
   C6_get_token_contract.2.1 sampleGrantEnv 1000 (sampleOAuthToken (some "r1".data) 1200)
      "r1".data (by decide) (by decide) rfl,
   C6_get_token_contract.2.2.1 sampleGrantEnv 1000 (sampleOAuthToken none 1200)
      (by decide) (by decide) rfl,
   C6_get_token_contract.2.2.2 sampleGrantEnv 1000 (sampleOAuthToken none 5000) (by decide)⟩

/-! ### Claim theorem for the session engine's local rejection -/

/-- C2: for any received line whose command word (case-insensitively)
is `LIST`, `SELECT` or `FETCH`, a session in Unauthenticated state
replies with exactly the tagged `NO Not authenticated` line, performs
zero remote calls and leaves the state unchanged; and a `FETCH` in
Authenticated state with no selected mailbox replies the tagged
`NO No mailbox selected` line, again with zero remote calls. -/
theorem C2_reject_locally_before_remote_call :
    (∀ (env : ImapEnv) (st : SessionState) (line tag cmdRaw : List Char)
        (rest : List (List Char)),
        splitnChar 3 ' ' (trimWs line) = tag :: cmdRaw :: rest →
        st.authenticated = false →
        (upperAscii cmdRaw = "LIST".data ∨ upperAscii cmdRaw = "SELECT".data ∨
          upperAscii cmdRaw = "FETCH".data) →
        imap_step env st line = ⟨[tag ++ " NO Not authenticated".data], st, [], false⟩) ∧
    (∀ (env : ImapEnv) (st : SessionState) (line tag cmdRaw : List Char)
        (rest : List (List Char)),
        splitnChar 3 ' ' (trimWs line) = tag :: cmdRaw :: rest →
        st.authenticated = true → st.selected_mailbox = none →
        upperAscii cmdRaw = "FETCH".data →
        imap_step env st line = ⟨[tag ++ " NO No mailbox selected".data], st, [], false⟩) := by
  constructor
  · intro env st line tag cmdRaw rest hsplit hauth hcmd
    simp only [imap_step, hsplit]
    rcases hcmd with h | h | h
    · rw [h, if_neg (by decide), if_neg (by decide), if_pos rfl, if_pos hauth]
    · rw [h, if_neg (by decide), if_neg (by decide), if_neg (by decide), if_pos rfl,
        if_pos hauth]
    · rw [h, if_neg (by decide), if_neg (by decide), if_neg (by decide), if_neg (by decide),
        if_pos rfl, if_pos hauth]
  · intro env st line tag cmdRaw rest hsplit hauth hsel hcmd
    simp only [imap_step, hsplit]
    rw [hcmd, if_neg (by decide), if_neg (by decide), if_neg (by decide), if_neg (by decide),
      if_pos rfl, if_neg (by simp [hauth]), if_pos hsel]

def stubImapEnv : ImapEnv :=
  { loginOk := true
    listFolders := fun _ pattern => list_folders true pattern
    selectFolder := fun name => select_folder true name
    fetchMessages := fun folder ss its => fetch_messages true folder ss its }

theorem C2_reject_locally_before_remote_call_witness :
    imap_step stubImapEnv ⟨false, none, false⟩ "a1 LIST \"\" *".data =
      ⟨["a1 NO Not authenticated".data], ⟨false, none, false⟩, [], false⟩ ∧
    imap_step stubImapEnv ⟨true, none, true⟩ "a4 FETCH 1 (UID)".data =
      ⟨["a4 NO No mailbox selected".data], ⟨true, none, true⟩, [], false⟩ :=
  ⟨C2_reject_locally_before_remote_call.1 stubImapEnv ⟨false, none, false⟩
      "a1 LIST \"\" *".data "a1".data "LIST".data ["\"\" *".data]
      (by decide) rfl (Or.inl (by decide)),
   C2_reject_locally_before_remote_call.2 stubImapEnv ⟨true, none, true⟩
      "a4 FETCH 1 (UID)".data "a4".data "FETCH".data ["1 (UID)".data]
      (by decide) rfl rfl (by decide)⟩

/-! ### Claim theorems for `fetch_messages` rendering -/

theorem renderItem_isSome_congr (s s' : Nat) (item : List Char) :
    (renderItem s item).isSome = (renderItem s' item).isSome := by
  unfold renderItem
  split_ifs <;> simp

theorem filterMap_eq_map_of_forall {α β : Type} (f : α → Option β) (g : α → β)
    (l : List α) (h : ∀ x ∈ l, f x = some (g x)) : l.filterMap f = l.map g := by
  induction l with
  | nil => rfl
  | cons a l ih =>
    rw [List.filterMap_cons, h a (List.mem_cons_self a l), List.map_cons,
      ih fun x hx => h x (List.mem_cons_of_mem a hx)]

/-- C7 counterexample: the claim promises one untagged FETCH line for
each requested sequence number of every successful FETCH, but when no
requested item is recognized the loop pushes no message at all: a
successful `fetch_messages` over sequence set `1` with items `(X-FOO)`
returns zero messages, not one line for sequence number 1. -/
theorem C7_counterexample_no_recognized_item :
    fetch_messages true "INBOX".data "1".data "(X-FOO)".data = .ok [] ∧
    parse_sequence_set "1".data = .ok [1] :=
  ⟨by decide, by decide⟩

/-- C7 (amended): for every successful FETCH whose item list contains at
least one recognized keyword, the engine renders one message per parsed
sequence number, in request order, whose payload is exactly the data
parts of the recognized requested items in request order (unrecognized
items silently omitted); a message whose rendered part list would be
empty is omitted entirely.  Concretely, `FETCH 1:3 (UID FLAGS)` yields
exactly three lines for sequence numbers 1, 2, 3, each with a `UID` and
a `FLAGS` part. -/
theorem C7_fetch_renders_per_sequence :
    (∀ (folder seq_set items : List Char) (seqs : List Nat),
        parse_sequence_set seq_set = .ok seqs →
        (∃ it ∈ fetch_items_of items, (renderItem 0 it).isSome) →
        fetch_messages true folder seq_set items =
          .ok (seqs.map fun seq =>
            { sequence := seq
              data := '(' :: List.intercalate " ".data
                  ((fetch_items_of items).filterMap (renderItem seq)) ++ [')'] })) ∧
    fetch_messages true "INBOX".data "1:3".data "(UID FLAGS)".data =
      .ok [{ sequence := 1, data := "(UID 1001 FLAGS (\\Seen))".data },
           { sequence := 2, data := "(UID 1002 FLAGS (\\Seen))".data },
           { sequence := 3, data := "(UID 1003 FLAGS (\\Seen))".data }] := by
  refine ⟨?_, by decide⟩
  intro folder seq_set items seqs hparse hrec
  have hne : ∀ x : Nat, ((fetch_items_of items).filterMap (renderItem x)) ≠ [] := by
    intro x
    obtain ⟨it, hit, hsome⟩ := hrec
    have hx : (renderItem x it).isSome := by
      rw [renderItem_isSome_congr x 0]; exact hsome
    obtain ⟨y, hy⟩ := Option.isSome_iff_exists.mp hx
    exact List.ne_nil_of_mem (List.mem_filterMap.mpr ⟨it, hit, hy⟩)
  unfold fetch_messages
  rw [hparse, except_bind_ok]
  simp only [if_pos]
  congr 1
  apply filterMap_eq_map_of_forall
  intro x _
  unfold renderMessage
  rw [if_neg]
  simp only [List.isEmpty_iff]
  exact hne x

theorem C7_fetch_renders_per_sequence_witness :
    fetch_messages true "INBOX".data "2,1".data "(FLAGS UID)".data =
      .ok ([2, 1].map fun seq =>
        { sequence := seq
          data := '(' :: List.intercalate " ".data
              ((fetch_items_of "(FLAGS UID)".data).filterMap (renderItem seq)) ++ [')'] }) :=
  C7_fetch_renders_per_sequence.1 "INBOX".data "2,1".data "(FLAGS UID)".data [2, 1]
    (by decide) ⟨"FLAGS".data, by decide, by decide⟩

/-! ### Claim theorems for `list_folders` pattern matching -/

theorem matchGlob_eq_matchToks (p : List Char) :
    ∀ s, matchGlob p s = matchToks (compilePattern p) s := by
  induction p with
  | nil => intro s; rfl
  | cons c ps ih =>
    intro s
    by_cases hc : c = '*'
    · subst hc
      simp only [matchGlob, compilePattern, List.map_cons, if_pos rfl, matchToks]
      simp only [ih]
      rfl
    · simp only [matchGlob, compilePattern, List.map_cons, if_neg hc, matchToks]
      cases s with
      | nil => rfl
      | cons x xs => simp only [ih]; rfl

theorem matchToks_imp_regexIsMatch {toks : List RTok} {f : List Char}
    (h : matchToks toks f = true) : regexIsMatch toks f = true := by
  unfold regexIsMatch
  refine List.any_eq_true.mpr ⟨f, ?_, ?_⟩
  · exact (List.mem_tails f f).mpr List.suffix_rfl
  · exact List.any_eq_true.mpr ⟨f, (List.mem_inits f f).mpr List.prefix_rfl, h⟩

/-- C8 counterexample: the claim says a folder is listed iff its display
name matches the pattern under whole-name glob semantics, but the source
filters with `regex::Regex::is_match`, an unanchored substring search:
the metacharacter-free pattern `raft` lists `Drafts` even though `Drafts`
does not glob-match `raft`. -/
theorem C8_counterexample_substring_match :
    list_folders true "raft".data = .ok ["Drafts".data] ∧
    matchGlob "raft".data "Drafts".data = false :=
  ⟨by decide, by decide⟩

/-- C8 (amended): pattern `*` lists every folder; for any other pattern
free of regex metacharacters, every folder whose display name glob-matches
the pattern is listed, but the filter actually used is the unanchored
regex search of the pattern with `*` replaced by `.*` — a folder is listed
iff that compiled regex matches anywhere in its name, which is weaker than
whole-name glob matching. -/
theorem C8_glob_sound_but_filter_is_substring :
    list_folders true "*".data = .ok allFolders ∧
    (∀ (pattern f : List Char), patternNoMeta pattern → pattern ≠ "*".data →
        f ∈ allFolders → matchGlob pattern f = true →
        ∃ l, list_folders true pattern = .ok l ∧ f ∈ l) ∧
    (∀ (pattern f : List Char) (l : List (List Char)), patternNoMeta pattern →
        pattern ≠ "*".data → list_folders true pattern = .ok l →
        (f ∈ l ↔ f ∈ allFolders ∧ regexIsMatch (compilePattern pattern) f = true)) := by
  refine ⟨by decide, ?_, ?_⟩
  · intro pattern f _ hne hf hglob
    refine ⟨allFolders.filter fun folder => regexIsMatch (compilePattern pattern) folder,
      ?_, ?_⟩
    · unfold list_folders
      rw [if_pos rfl, if_neg hne]
    · refine List.mem_filter.mpr ⟨hf, ?_⟩
      exact matchToks_imp_regexIsMatch ((matchGlob_eq_matchToks pattern f) ▸ hglob)
  · intro pattern f l _ hne hl
    unfold list_folders at hl
    rw [if_pos rfl, if_neg hne] at hl
    obtain rfl := Except.ok.inj hl
    exact List.mem_filter

theorem C8_glob_sound_but_filter_is_substring_witness :
    (∃ l, list_folders true "Dr*".data = .ok l ∧ "Drafts".data ∈ l) ∧
    ("Drafts".data ∈ ["Drafts".data] ↔
      "Drafts".data ∈ allFolders ∧
        regexIsMatch (compilePattern "raft".data) "Drafts".data = true) :=
  ⟨C8_glob_sound_but_filter_is_substring.2.1 "Dr*".data "Drafts".data
      (by decide) (by decide) (by decide) (by decide),
   C8_glob_sound_but_filter_is_substring.2.2 "raft".data "Drafts".data ["Drafts".data]
      (by decide) (by decide) (by decide)⟩
